import Mathlib

/-
Verification development for the GlyphGenerator primitive-editing engine
(src/examples/GlyphGenerator/main.cpp of the upp_GalleryCtrl repository).

Conventions of the shallow embedding:
- C++ `double` is modelled as `ℚ` (exact rational arithmetic on the literal
  values; the spec only demands agreement within floating-point tolerance).
- C++ `int` pixel arithmetic is modelled as `Int`; C++ integer division
  truncates toward zero, which is `Int.tdiv`; C++ `int(double)` conversion
  also truncates toward zero (`cppTrunc`).
- `Upp::Color` stores 8-bit channels, modelled as `Fin 256`.
- The abstract `Emitter` interface of the source is modelled as the
  inductive `EmitOp`; a render pass produces the list of emitter calls it
  would make, in order.
-/

namespace Glyph

/-- C++ `int(x)` conversion of a double: truncation toward zero
(floor for nonnegative values, ceiling for negative ones). -/
def cppTrunc (q : ℚ) : Int :=
  if 0 ≤ q then ⌊q⌋ else ⌈q⌉

/-- 8-bit color channel triple, as in `Upp::Color` (GetR/GetG/GetB). -/
structure Color where
  r : Fin 256
  g : Fin 256
  b : Fin 256
deriving DecidableEq

/-- `Upp::Black()`. -/
def black : Color := ⟨0, 0, 0⟩

/-- `Upp::Red()`. -/
def red : Color := ⟨255, 0, 0⟩

/-- `struct Style` of main.cpp. -/
structure Style where
  fill : Color := ⟨163, 201, 168⟩
  stroke : Color := ⟨30, 53, 47⟩
  strokeWidth : Int := 2
  evenOdd : Bool := false
  dash : String := ""
  enableFill : Bool := true
  enableStroke : Bool := true
  opacity : ℚ := 1
  outlineEnable : Bool := false
  outlineColor : Color := red
  outlineWidth : Int := 0
  outlineOutside : Bool := true

/-- `Shape::Type` of main.cpp. -/
inductive ShapeType
  | Rect
  | Circle
  | Line
  | Triangle
deriving DecidableEq

/-- `Upp::Pointf` (a pair of doubles). -/
structure Pointf where
  x : ℚ
  y : ℚ
deriving DecidableEq

instance : Inhabited Pointf := ⟨⟨0, 0⟩⟩

/-- `struct Shape` of main.cpp: kind tag, style, and all geometry fields
(each kind uses its own subset; all fields are serialized). -/
structure Shape where
  type : ShapeType
  style : Style := {}
  x : ℚ := 0
  y : ℚ := 0
  w : ℚ := 0
  h : ℚ := 0
  cx : ℚ := 0
  cy : ℚ := 0
  r : ℚ := 0
  p1 : Pointf := ⟨0, 0⟩
  p2 : Pointf := ⟨0, 0⟩
  p3 : Pointf := ⟨0, 0⟩
  id : Int := 0

instance : Inhabited Shape := ⟨{ type := ShapeType.Rect }⟩

/-- `struct Inset` of main.cpp (pixel inset where normalized geometry maps). -/
structure Inset where
  x : Int := 50
  y : Int := 50
  w : Int := 400
  h : Int := 300

/-- Integer pixel point (`Upp::Point`). -/
structure IPoint where
  x : Int
  y : Int
deriving DecidableEq

instance : Add IPoint := ⟨fun a b => ⟨a.x + b.x, a.y + b.y⟩⟩

/-- Integer pixel rectangle (`Upp::Rect`, edge coordinates). -/
structure IRect where
  left : Int
  top : Int
  right : Int
  bottom : Int

/-- `Rect::Width()`. -/
def IRect.width (r : IRect) : Int := r.right - r.left

/-- `Rect::Height()`. -/
def IRect.height (r : IRect) : Int := r.bottom - r.top

/-- `Upp::RectC(x, y, cx, cy)`. -/
def rectC (x y cx cy : Int) : IRect := ⟨x, y, x + cx, y + cy⟩

/-- `Rect::Contains(Point)` (half-open on right/bottom, as in U++). -/
def IRect.contains (r : IRect) (p : IPoint) : Bool :=
  r.left ≤ p.x && p.x < r.right && r.top ≤ p.y && p.y < r.bottom

/-- `Rect::Inflated(d)`. -/
def IRect.inflated (r : IRect) (d : Int) : IRect :=
  ⟨r.left - d, r.top - d, r.right + d, r.bottom + d⟩

/-- `Canvas::GetInsetRect()`. -/
def getInsetRect (ins : Inset) : IRect :=
  rectC ins.x ins.y ins.w ins.h

/-- `X(r, nx) = r.left + int(r.Width() * nx + 0.5)` of main.cpp. -/
def pxX (r : IRect) (nx : ℚ) : Int :=
  r.left + cppTrunc ((r.width : ℚ) * nx + 1/2)

/-- `Y(r, ny) = r.top + int(r.Height() * ny + 0.5)` of main.cpp. -/
def pxY (r : IRect) (ny : ℚ) : Int :=
  r.top + cppTrunc ((r.height : ℚ) * ny + 1/2)

/-- `Rr(r, nr) = int(min(r.Width(), r.Height()) * nr + 0.5)` of main.cpp. -/
def pxR (r : IRect) (nr : ℚ) : Int :=
  cppTrunc ((min r.width r.height : ℚ) * nr + 1/2)

/-- `NX(r, px) = (px - r.left) / double(max(1, r.Width()))` of main.cpp. -/
def nX (r : IRect) (px : Int) : ℚ :=
  ((px - r.left : Int) : ℚ) / ((max 1 r.width : Int) : ℚ)

/-- `NY(r, py) = (py - r.top) / double(max(1, r.Height()))` of main.cpp. -/
def nY (r : IRect) (py : Int) : ℚ :=
  ((py - r.top : Int) : ℚ) / ((max 1 r.height : Int) : ℚ)

/-- `Canvas::Snap1D(v, origin, step)`: C++ integer arithmetic,
`origin + ((v - origin + step/2) / step) * step` with truncating division. -/
def snap1D (v origin step : Int) : Int :=
  origin + (Int.tdiv (v - origin + Int.tdiv step 2) step) * step

/-- `Canvas::SnapPt(p, ir, step)`. -/
def snapPt (p : IPoint) (ir : IRect) (step : Int) : IPoint :=
  ⟨snap1D p.x ir.left step, snap1D p.y ir.top step⟩

/-- One call on the abstract `Emitter` interface of main.cpp. -/
inductive EmitOp
  | Begin
  | End
  | Move (p : Pointf)
  | Line (p : Pointf)
  | Quadratic (p1 p : Pointf)
  | Cubic (p1 p2 p : Pointf)
  | Close
  | Fill (c : Color)
  | Stroke (w : ℚ) (c : Color)
  | Dash (spec : String) (phase : ℚ)
  | Opacity (o : ℚ)
  | EvenOdd (eo : Bool)
  | Clip
deriving DecidableEq

/-- `Canvas::EmitRectPath(e, r)`. -/
def emitRectPath (r : IRect) : List EmitOp :=
  [EmitOp.Begin,
   EmitOp.Move ⟨(r.left : ℚ), (r.top : ℚ)⟩,
   EmitOp.Line ⟨(r.right : ℚ), (r.top : ℚ)⟩,
   EmitOp.Line ⟨(r.right : ℚ), (r.bottom : ℚ)⟩,
   EmitOp.Line ⟨(r.left : ℚ), (r.bottom : ℚ)⟩,
   EmitOp.Close]

/-- The kappa constant `0.5522847498307936` of `Canvas::EmitCirclePath`. -/
def kappa : ℚ := 5522847498307936 / 10000000000000000

/-- `Canvas::EmitCirclePath(e, c0, radius)`: circle as 4 cubic Beziers. -/
def emitCirclePath (c0 : IPoint) (radius : Int) : List EmitOp :=
  let rx : ℚ := (radius : ℚ)
  let ry : ℚ := (radius : ℚ)
  let c : Pointf := ⟨(c0.x : ℚ), (c0.y : ℚ)⟩
  let p0 : Pointf := ⟨c.x + 0, c.y - ry⟩
  let p1 : Pointf := ⟨c.x + kappa * rx, c.y - ry⟩
  let p2 : Pointf := ⟨c.x + rx, c.y - kappa * ry⟩
  let p3 : Pointf := ⟨c.x + rx, c.y + 0⟩
  let p4 : Pointf := ⟨c.x + rx, c.y + kappa * ry⟩
  let p5 : Pointf := ⟨c.x + kappa * rx, c.y + ry⟩
  let p6 : Pointf := ⟨c.x + 0, c.y + ry⟩
  let p7 : Pointf := ⟨c.x - kappa * rx, c.y + ry⟩
  let p8 : Pointf := ⟨c.x - rx, c.y + kappa * ry⟩
  let p9 : Pointf := ⟨c.x - rx, c.y + 0⟩
  let p10 : Pointf := ⟨c.x - rx, c.y - kappa * ry⟩
  let p11 : Pointf := ⟨c.x - kappa * rx, c.y - ry⟩
  [EmitOp.Begin,
   EmitOp.Move p0,
   EmitOp.Cubic p1 p2 p3,
   EmitOp.Cubic p4 p5 p6,
   EmitOp.Cubic p7 p8 p9,
   EmitOp.Cubic p10 p11 p0,
   EmitOp.Close]

/-- `Canvas::StylePass(e, st, main_pass, is_line)`: the emitter calls made
for one style pass over the current path, in source order. -/
def stylePass (st : Style) (main_pass is_line : Bool) : List EmitOp :=
  if main_pass then
    (if st.opacity < 1 then [EmitOp.Opacity st.opacity] else []) ++
    (if st.dash = "" then [] else [EmitOp.Dash st.dash 0]) ++
    (if st.enableFill && !is_line then [EmitOp.Fill st.fill] else []) ++
    (if st.enableStroke then [EmitOp.Stroke (st.strokeWidth : ℚ) st.stroke] else []) ++
    (if st.evenOdd then [EmitOp.EvenOdd true] else [])
  else
    (if st.outlineEnable && 0 < st.outlineWidth then
       [EmitOp.Stroke ((st.strokeWidth + 2 * max 0 st.outlineWidth : Int) : ℚ) st.outlineColor]
     else [])

/-- The `rebuild` lambda of `Canvas::EmitShape`: path construction for one
shape, by kind. -/
def rebuildPath (s : Shape) (inset : IRect) : List EmitOp :=
  match s.type with
  | ShapeType.Rect =>
      emitRectPath ⟨pxX inset s.x, pxY inset s.y,
                    pxX inset (s.x + s.w), pxY inset (s.y + s.h)⟩
  | ShapeType.Circle =>
      emitCirclePath ⟨pxX inset s.cx, pxY inset s.cy⟩ (pxR inset s.r)
  | ShapeType.Line =>
      [EmitOp.Begin,
       EmitOp.Move ⟨((pxX inset s.p1.x : Int) : ℚ), ((pxY inset s.p1.y : Int) : ℚ)⟩,
       EmitOp.Line ⟨((pxX inset s.p2.x : Int) : ℚ), ((pxY inset s.p2.y : Int) : ℚ)⟩]
  | ShapeType.Triangle =>
      [EmitOp.Begin,
       EmitOp.Move ⟨((pxX inset s.p1.x : Int) : ℚ), ((pxY inset s.p1.y : Int) : ℚ)⟩,
       EmitOp.Line ⟨((pxX inset s.p2.x : Int) : ℚ), ((pxY inset s.p2.y : Int) : ℚ)⟩,
       EmitOp.Line ⟨((pxX inset s.p3.x : Int) : ℚ), ((pxY inset s.p3.y : Int) : ℚ)⟩,
       EmitOp.Close]

/-- `Canvas::EmitShape(e, s, inset, clip_to_inset)`: outline pass first when
`outlineOutside`, then the main pass, else outline pass after. -/
def emitShape (s : Shape) (inset : IRect) : List EmitOp :=
  let is_line := s.type = ShapeType.Line
  (if s.style.outlineEnable && s.style.outlineOutside then
     rebuildPath s inset ++ stylePass s.style false is_line ++ [EmitOp.End]
   else []) ++
  (rebuildPath s inset ++ stylePass s.style true is_line ++ [EmitOp.End]) ++
  (if s.style.outlineEnable && !s.style.outlineOutside then
     rebuildPath s inset ++ stylePass s.style false is_line ++ [EmitOp.End]
   else [])

/-- One generated painter call in the code-generation output of
`MainWin::RefreshCode` (the textual fragment, abstracted to its calls;
coordinates are the normalized values printed into the text). -/
inductive CodeOp
  | CommentKind (k : ShapeType)
  | BeginC
  | EndC
  | MoveC (x y : ℚ)
  | LineC (x y : ℚ)
  | CloseC
  | CircleC (cx cy r : ℚ)
  | OpacityC (o : ℚ)
  | DashC (spec : String)
  | FillC (c : Color)
  | StrokeC (w : Int) (c : Color)
  | EvenOddC

/-- The `emit_rect` lambda of `MainWin::RefreshCode`. -/
def emitRectCode (x y w h : ℚ) : List CodeOp :=
  [CodeOp.CommentKind ShapeType.Rect, CodeOp.BeginC,
   CodeOp.MoveC x y, CodeOp.LineC (x + w) y,
   CodeOp.LineC (x + w) (y + h), CodeOp.LineC x (y + h), CodeOp.CloseC]

/-- The `emit_circle` lambda of `MainWin::RefreshCode`. -/
def emitCircleCode (cx cy r : ℚ) : List CodeOp :=
  [CodeOp.CommentKind ShapeType.Circle, CodeOp.BeginC, CodeOp.CircleC cx cy r]

/-- The `emit_line` lambda of `MainWin::RefreshCode`. -/
def emitLineCode (x1 y1 x2 y2 : ℚ) : List CodeOp :=
  [CodeOp.CommentKind ShapeType.Line, CodeOp.BeginC,
   CodeOp.MoveC x1 y1, CodeOp.LineC x2 y2]

/-- The `emit_tri` lambda of `MainWin::RefreshCode`. -/
def emitTriCode (a b c : Pointf) : List CodeOp :=
  [CodeOp.CommentKind ShapeType.Triangle, CodeOp.BeginC,
   CodeOp.MoveC a.x a.y, CodeOp.LineC b.x b.y, CodeOp.LineC c.x c.y, CodeOp.CloseC]

/-- The `emit_style` lambda of `MainWin::RefreshCode` (always ends the path). -/
def emitStyleCode (st : Style) (main_pass is_line : Bool) : List CodeOp :=
  (if main_pass then
    (if st.opacity < 1 then [CodeOp.OpacityC st.opacity] else []) ++
    (if st.dash = "" then [] else [CodeOp.DashC st.dash]) ++
    (if st.enableFill && !is_line then [CodeOp.FillC st.fill] else []) ++
    (if st.enableStroke then [CodeOp.StrokeC st.strokeWidth st.stroke] else []) ++
    (if st.evenOdd then [CodeOp.EvenOddC] else [])
  else
    (if st.outlineEnable && 0 < st.outlineWidth then
       [CodeOp.StrokeC (st.strokeWidth + 2 * max 0 st.outlineWidth) st.outlineColor]
     else [])) ++ [CodeOp.EndC]

/-- The per-kind path fragment chosen by the `switch(s.type)` blocks of
`MainWin::RefreshCode`. -/
def emitPathCode (s : Shape) : List CodeOp :=
  match s.type with
  | ShapeType.Rect => emitRectCode s.x s.y s.w s.h
  | ShapeType.Circle => emitCircleCode s.cx s.cy s.r
  | ShapeType.Line => emitLineCode s.p1.x s.p1.y s.p2.x s.p2.y
  | ShapeType.Triangle => emitTriCode s.p1 s.p2 s.p3

/-- The body of the per-shape loop of `MainWin::RefreshCode`: optional
outline pass before or after the main pass, re-emitting the path. -/
def refreshCodeShape (s : Shape) : List CodeOp :=
  let is_line := s.type = ShapeType.Line
  (if s.style.outlineEnable && 0 < s.style.outlineWidth && s.style.outlineOutside then
     emitPathCode s ++ emitStyleCode s.style false is_line
   else []) ++
  (emitPathCode s ++ emitStyleCode s.style true is_line) ++
  (if s.style.outlineEnable && 0 < s.style.outlineWidth && !s.style.outlineOutside then
     emitPathCode s ++ emitStyleCode s.style false is_line
   else [])

/-- `MainWin::RefreshCode` over the whole document (wrapper text omitted). -/
def refreshCode (shapes : List Shape) : List CodeOp :=
  (shapes.map refreshCodeShape).flatten

/-- Editing tools (`enum class Tool`). -/
inductive Tool
  | Cursor
  | Rect
  | Circle
  | Line
  | Triangle
deriving DecidableEq

/-- The per-shape bounding box computed inside the pick loop of
`Canvas::LeftDown` (cursor branch). -/
def pickBB (ir : IRect) (s : Shape) : IRect :=
  match s.type with
  | ShapeType.Rect =>
      ⟨pxX ir s.x, pxY ir s.y, pxX ir (s.x + s.w), pxY ir (s.y + s.h)⟩
  | ShapeType.Circle =>
      rectC (pxX ir s.cx - pxR ir s.r) (pxY ir s.cy - pxR ir s.r)
            (2 * pxR ir s.r) (2 * pxR ir s.r)
  | ShapeType.Line =>
      let x1 := pxX ir s.p1.x
      let y1 := pxY ir s.p1.y
      let x2 := pxX ir s.p2.x
      let y2 := pxY ir s.p2.y
      IRect.inflated ⟨min x1 x2, min y1 y2, max x1 x2, max y1 y2⟩ 6
  | ShapeType.Triangle =>
      let x1 := pxX ir s.p1.x
      let y1 := pxY ir s.p1.y
      let x2 := pxX ir s.p2.x
      let y2 := pxY ir s.p2.y
      let x3 := pxX ir s.p3.x
      let y3 := pxY ir s.p3.y
      IRect.inflated ⟨min (min x1 x2) x3, min (min y1 y2) y3,
                      max (max x1 x2) x3, max (max y1 y2) y3⟩ 6

/-- Whether the pick loop hits shape `s` at pixel `p`. -/
def pickHit (ir : IRect) (s : Shape) (p : IPoint) : Bool :=
  (pickBB ir s).contains p

/-- The pick loop of `Canvas::LeftDown` (cursor branch): walk indices
`i = count-1 .. 0`, first contained bounding box wins; `-1` if none. -/
def pickLoop (ir : IRect) (shapes : List Shape) (p : IPoint) : Nat → Int
  | 0 => -1
  | i + 1 =>
      if pickHit ir (shapes.getD i default) p then (i : Int)
      else pickLoop ir shapes p i

/-- The value assigned to `selected` by the cursor branch of
`Canvas::LeftDown`. -/
def pickTopmost (ir : IRect) (shapes : List Shape) (p : IPoint) : Int :=
  pickLoop ir shapes p shapes.length

/-- `Canvas::HitVertex(m, px)`: handle index for shape `s`, or `-1`. -/
def hitVertex (ir : IRect) (s : Shape) (m : IPoint) (px : Int) : Int :=
  let P := fun (q : Pointf) => (⟨pxX ir q.x, pxY ir q.y⟩ : IPoint)
  match s.type with
  | ShapeType.Line =>
      if |((P s.p1).x - m.x)| ≤ px && |((P s.p1).y - m.y)| ≤ px then 0
      else if |((P s.p2).x - m.x)| ≤ px && |((P s.p2).y - m.y)| ≤ px then 1
      else -1
  | ShapeType.Triangle =>
      if |((P s.p1).x - m.x)| ≤ px && |((P s.p1).y - m.y)| ≤ px then 0
      else if |((P s.p2).x - m.x)| ≤ px && |((P s.p2).y - m.y)| ≤ px then 1
      else if |((P s.p3).x - m.x)| ≤ px && |((P s.p3).y - m.y)| ≤ px then 2
      else -1
  | ShapeType.Rect =>
      let r : IRect := ⟨pxX ir s.x, pxY ir s.y, pxX ir (s.x + s.w), pxY ir (s.y + s.h)⟩
      if |(r.left - m.x)| ≤ px && |(r.top - m.y)| ≤ px then 0
      else if |(r.right - m.x)| ≤ px && |(r.top - m.y)| ≤ px then 1
      else if |(r.right - m.x)| ≤ px && |(r.bottom - m.y)| ≤ px then 2
      else if |(r.left - m.x)| ≤ px && |(r.bottom - m.y)| ≤ px then 3
      else -1
  | ShapeType.Circle =>
      let c : IPoint := ⟨pxX ir s.cx, pxY ir s.cy⟩
      let rr := pxR ir s.r
      let bb := rectC (c.x - rr) (c.y - rr) (2 * rr) (2 * rr)
      if |(bb.right - m.x)| ≤ px && |(c.y - m.y)| ≤ px then 0 else -1

/-- `Canvas::HitBody(m)` for shape `s` (coarse body test per kind). -/
def hitBody (ir : IRect) (s : Shape) (m : IPoint) : Bool :=
  match s.type with
  | ShapeType.Rect =>
      IRect.contains ⟨pxX ir s.x, pxY ir s.y, pxX ir (s.x + s.w), pxY ir (s.y + s.h)⟩ m
  | ShapeType.Circle =>
      let c : IPoint := ⟨pxX ir s.cx, pxY ir s.cy⟩
      let rr := pxR ir s.r
      (m.x - c.x) * (m.x - c.x) + (m.y - c.y) * (m.y - c.y) ≤ rr * rr
  | ShapeType.Line =>
      let x1 := pxX ir s.p1.x
      let y1 := pxY ir s.p1.y
      let x2 := pxX ir s.p2.x
      let y2 := pxY ir s.p2.y
      (IRect.inflated ⟨min x1 x2, min y1 y2, max x1 x2, max y1 y2⟩ 4).contains m
  | ShapeType.Triangle =>
      let x1 := pxX ir s.p1.x
      let y1 := pxY ir s.p1.y
      let x2 := pxX ir s.p2.x
      let y2 := pxY ir s.p2.y
      let x3 := pxX ir s.p3.x
      let y3 := pxY ir s.p3.y
      IRect.contains ⟨min (min x1 x2) x3, min (min y1 y2) y3,
                      max (max x1 x2) x3, max (max y1 y2) y3⟩ m

/-- The `Canvas` model/interaction fields that the pointer ops touch. -/
structure EditorState where
  shapes : List Shape := []
  defaultStyle : Style := {}
  inset : Inset := {}
  snap : Bool := true
  grid : Int := 20
  drawing : Bool := false
  selected : Int := -1
  start : IPoint := ⟨0, 0⟩
  moving : Bool := false
  dragVertex : Int := -1
  grabPx : IPoint := ⟨0, 0⟩
  grabNx : ℚ := 0
  grabNy : ℚ := 0

/-- `shapes.IsEmpty() ? 1 : shapes.Top().id + 1` (id for a new shape). -/
def nextId (shapes : List Shape) : Int :=
  match shapes.getLast? with
  | none => 1
  | some t => t.id + 1

/-- Cursor branch of `Canvas::LeftDown`: topmost pick, then handle test,
then body test (which records the normalized grab offset). -/
def leftDownCursor (st : EditorState) (p : IPoint) : EditorState :=
  let ir := getInsetRect st.inset
  let best := pickTopmost ir st.shapes p
  let st1 := { st with selected := best, moving := false, dragVertex := -1 }
  if 0 ≤ best then
    let s := st.shapes.getD best.toNat default
    let hv := hitVertex ir s p 6
    if 0 ≤ hv then { st1 with dragVertex := hv, grabPx := p }
    else if hitBody ir s p then
      let g : ℚ × ℚ :=
        match s.type with
        | ShapeType.Rect => (nX ir p.x - s.x, nY ir p.y - s.y)
        | ShapeType.Circle => (nX ir p.x - s.cx, nY ir p.y - s.cy)
        | ShapeType.Line => (nX ir p.x - s.p1.x, nY ir p.y - s.p1.y)
        | ShapeType.Triangle => (nX ir p.x - s.p1.x, nY ir p.y - s.p1.y)
      { st1 with moving := true, grabPx := p, grabNx := g.1, grabNy := g.2 }
    else st1
  else st1

/-- Creation branch of `Canvas::LeftDown` (non-cursor tools). The `Bool`
result records whether `WhenModelChanged` fired. -/
def leftDownCreate (st : EditorState) (tool : Tool) (p : IPoint) : EditorState × Bool :=
  let ir := getInsetRect st.inset
  if !(tool = Tool.Rect || tool = Tool.Circle || tool = Tool.Line || tool = Tool.Triangle) then
    (st, false)
  else if !(ir.contains p) then (st, false)
  else
    let start := if st.snap then snapPt p ir st.grid else p
    let base : Shape := { type := ShapeType.Rect, style := st.defaultStyle, id := nextId st.shapes }
    let s : Shape :=
      match tool with
      | Tool.Rect => { base with type := ShapeType.Rect, x := nX ir p.x, y := nY ir p.y, w := 0, h := 0 }
      | Tool.Circle => { base with type := ShapeType.Circle, cx := nX ir p.x, cy := nY ir p.y, r := 0 }
      | Tool.Line =>
          { base with type := ShapeType.Line,
                      p1 := ⟨nX ir p.x, nY ir p.y⟩, p2 := ⟨nX ir p.x, nY ir p.y⟩ }
      | Tool.Triangle =>
          { base with type := ShapeType.Triangle,
                      p1 := ⟨nX ir p.x, nY ir p.y⟩, p2 := ⟨nX ir p.x, nY ir p.y⟩,
                      p3 := ⟨nX ir p.x, nY ir p.y⟩ }
      | Tool.Cursor => base
    ({ st with shapes := st.shapes ++ [s],
               selected := (st.shapes.length : Int),
               drawing := true,
               start := start }, true)

/-- The `moving` branch of `Canvas::MouseMove`: translate the whole shape
so that the grabbed normalized offset `(gx, gy)` is preserved. -/
def mouseMoveMoving (ir : IRect) (snapFlag : Bool) (grid : Int) (gx gy : ℚ)
    (s : Shape) (p : IPoint) : Shape :=
  let n : ℚ × ℚ :=
    if snapFlag then
      let sp := snapPt p ir grid
      (nX ir sp.x, nY ir sp.y)
    else (nX ir p.x, nY ir p.y)
  let nx := n.1
  let ny := n.2
  match s.type with
  | ShapeType.Rect => { s with x := nx - gx, y := ny - gy }
  | ShapeType.Circle => { s with cx := nx - gx, cy := ny - gy }
  | ShapeType.Line =>
      let d : Pointf := ⟨nx - gx - s.p1.x, ny - gy - s.p1.y⟩
      { s with p1 := ⟨s.p1.x + d.x, s.p1.y + d.y⟩,
               p2 := ⟨s.p2.x + d.x, s.p2.y + d.y⟩ }
  | ShapeType.Triangle =>
      let d : Pointf := ⟨nx - gx - s.p1.x, ny - gy - s.p1.y⟩
      { s with p1 := ⟨s.p1.x + d.x, s.p1.y + d.y⟩,
               p2 := ⟨s.p2.x + d.x, s.p2.y + d.y⟩,
               p3 := ⟨s.p3.x + d.x, s.p3.y + d.y⟩ }

/-- The `drag_vertex >= 0` branch of `Canvas::MouseMove`. The circle radius
handle uses C++ `sqrt` on doubles, passed in abstractly as `sqrtQ`. -/
def mouseMoveDragVertex (sqrtQ : ℚ → ℚ) (ir : IRect) (snapFlag : Bool) (grid : Int)
    (dragV : Int) (s : Shape) (p : IPoint) : Shape :=
  let sp := if snapFlag then snapPt p ir grid else p
  match s.type with
  | ShapeType.Rect =>
      let nx := nX ir sp.x
      let ny := nY ir sp.y
      let x2 := s.x + s.w
      let y2 := s.y + s.h
      if dragV = 0 then { s with x := nx, y := ny, w := x2 - nx, h := y2 - ny }
      else if dragV = 1 then { s with y := ny, w := nx - s.x, h := y2 - ny }
      else if dragV = 2 then { s with w := nx - s.x, h := ny - s.y }
      else if dragV = 3 then { s with x := nx, w := x2 - nx, h := ny - s.y }
      else s
  | ShapeType.Circle =>
      let dx := nX ir sp.x - s.cx
      let dy := nY ir sp.y - s.cy
      { s with r := sqrtQ (dx * dx + dy * dy) }
  | ShapeType.Line =>
      if dragV = 0 then { s with p1 := ⟨nX ir sp.x, nY ir sp.y⟩ }
      else { s with p2 := ⟨nX ir sp.x, nY ir sp.y⟩ }
  | ShapeType.Triangle =>
      let q : Pointf := ⟨nX ir sp.x, nY ir sp.y⟩
      let s1 := if dragV = 0 then { s with p1 := q } else s
      let s2 := if dragV = 1 then { s1 with p2 := q } else s1
      if dragV = 2 then { s2 with p3 := q } else s2

/-- `Canvas::DeleteSelection()`. -/
def deleteSelection (st : EditorState) : EditorState :=
  if 0 ≤ st.selected ∧ st.selected < (st.shapes.length : Int) then
    let shapes2 := st.shapes.eraseIdx st.selected.toNat
    { st with shapes := shapes2,
              selected := min st.selected ((shapes2.length : Int) - 1) }
  else st

/-- `Canvas::DuplicateSelection()`. -/
def duplicateSelection (st : EditorState) : EditorState :=
  if 0 ≤ st.selected ∧ st.selected < (st.shapes.length : Int) then
    let c := { st.shapes.getD st.selected.toNat default with id := nextId st.shapes }
    { st with shapes := st.shapes.insertIdx (st.selected.toNat + 1) c,
              selected := st.selected + 1 }
  else st

/-- `Upp::Swap` of two list entries. -/
def listSwap (l : List Shape) (i j : Nat) : List Shape :=
  (l.set i (l.getD j default)).set j (l.getD i default)

/-- `Canvas::LayerUp()`. -/
def layerUp (st : EditorState) : EditorState :=
  if 0 ≤ st.selected ∧ st.selected + 1 < (st.shapes.length : Int) then
    { st with shapes := listSwap st.shapes st.selected.toNat (st.selected.toNat + 1),
              selected := st.selected + 1 }
  else st

/-- `Canvas::LayerDown()`. -/
def layerDown (st : EditorState) : EditorState :=
  if 0 < st.selected then
    { st with shapes := listSwap st.shapes st.selected.toNat (st.selected.toNat - 1),
              selected := st.selected - 1 }
  else st

/-- `Canvas::FlipSelection(horizontal)`. -/
def flipSelection (st : EditorState) (horizontal : Bool) : EditorState :=
  if 0 ≤ st.selected ∧ st.selected < (st.shapes.length : Int) then
    let s := st.shapes.getD st.selected.toNat default
    let flipx := fun (nx cx : ℚ) => cx - (nx - cx)
    let flipy := fun (ny cy : ℚ) => cy - (ny - cy)
    let s2 :=
      match s.type with
      | ShapeType.Rect =>
          let cx := s.x + s.w / 2
          let cy := s.y + s.h / 2
          if horizontal then { s with x := flipx s.x cx } else { s with y := flipy s.y cy }
      | ShapeType.Circle => s
      | ShapeType.Line =>
          let cx := (s.p1.x + s.p2.x) / 2
          let cy := (s.p1.y + s.p2.y) / 2
          if horizontal then
            { s with p1 := ⟨flipx s.p1.x cx, s.p1.y⟩, p2 := ⟨flipx s.p2.x cx, s.p2.y⟩ }
          else
            { s with p1 := ⟨s.p1.x, flipy s.p1.y cy⟩, p2 := ⟨s.p2.x, flipy s.p2.y cy⟩ }
      | ShapeType.Triangle =>
          let cx := (s.p1.x + s.p2.x + s.p3.x) / 3
          let cy := (s.p1.y + s.p2.y + s.p3.y) / 3
          if horizontal then
            { s with p1 := ⟨flipx s.p1.x cx, s.p1.y⟩, p2 := ⟨flipx s.p2.x cx, s.p2.y⟩,
                     p3 := ⟨flipx s.p3.x cx, s.p3.y⟩ }
          else
            { s with p1 := ⟨s.p1.x, flipy s.p1.y cy⟩, p2 := ⟨s.p2.x, flipy s.p2.y cy⟩,
                     p3 := ⟨s.p3.x, flipy s.p3.y cy⟩ }
    { st with shapes := st.shapes.set st.selected.toNat s2 }
  else st

/-- `MainWin::OnClearAll()` (model part). -/
def clearAll (st : EditorState) : EditorState :=
  { st with shapes := [], selected := -1 }

/-- Structured JSON value (`Upp::Value` / `ValueMap` / `ValueArray` as built
by `MainWin::MakeJson` and consumed by `MainWin::LoadJson`; the JSON text
layer `AsJSON`/`ParseJSON` is external serialization plumbing). -/
inductive JVal
  | null
  | str (s : String)
  | jint (n : Int)
  | num (q : ℚ)
  | jbool (b : Bool)
  | arr (xs : List JVal)
  | obj (fields : List (String × JVal))

/-- Key lookup in a `ValueMap`. -/
def jlookup (fields : List (String × JVal)) (k : String) : Option JVal :=
  match fields with
  | [] => none
  | (k2, v) :: rest => if k2 = k then some v else jlookup rest k

/-- The fields of a map value (a non-map coerces to an empty map). -/
def JVal.fieldsOf : JVal → List (String × JVal)
  | JVal.obj fs => fs
  | _ => []

/-- `m[key]` on a `ValueMap` (missing key gives a void value). -/
def JVal.getKey (v : JVal) (k : String) : JVal :=
  (jlookup v.fieldsOf k).getD JVal.null

/-- `(int)value`. -/
def JVal.toIntV : JVal → Int
  | JVal.jint n => n
  | _ => 0

/-- `value.To<double>()`. -/
def JVal.toRatV : JVal → ℚ
  | JVal.num q => q
  | JVal.jint n => (n : ℚ)
  | _ => 0

/-- `(bool)value`. -/
def JVal.toBoolV : JVal → Bool
  | JVal.jbool b => b
  | _ => false

/-- `value.ToString()`. -/
def JVal.toStrV : JVal → String
  | JVal.str s => s
  | _ => ""

/-- One uppercase hex digit, as printed by `Format("%02X", ...)`. -/
def hexDigitChar (n : Nat) : Char :=
  if n < 10 then Char.ofNat (48 + n) else Char.ofNat (55 + n)

/-- `MainWin::ColorToString(c)`: `Format("#%02X%02X%02X", r, g, b)`. -/
def colorToString (c : Color) : String :=
  String.mk ['#',
    hexDigitChar (c.r.val / 16), hexDigitChar (c.r.val % 16),
    hexDigitChar (c.g.val / 16), hexDigitChar (c.g.val % 16),
    hexDigitChar (c.b.val / 16), hexDigitChar (c.b.val % 16)]

/-- Hex digit value accepted by `strtoul(..., 16)`. -/
def hexCharVal (ch : Char) : Option Nat :=
  if 48 ≤ ch.toNat ∧ ch.toNat ≤ 57 then some (ch.toNat - 48)
  else if 65 ≤ ch.toNat ∧ ch.toNat ≤ 70 then some (ch.toNat - 55)
  else if 97 ≤ ch.toNat ∧ ch.toNat ≤ 102 then some (ch.toNat - 87)
  else none

/-- `strtoul(p, nullptr, 16)`: accumulate hex digits, stop at the first
non-digit. -/
def strtoul16 (acc : Nat) : List Char → Nat
  | [] => acc
  | ch :: rest =>
      match hexCharVal ch with
      | some d => strtoul16 (16 * acc + d) rest
      | none => acc

/-- `MainWin::StringToColor(s)`. -/
def stringToColor (s : String) : Color :=
  if s.length = 7 ∧ s.data.headD ' ' = '#' then
    let n := strtoul16 0 (s.data.drop 1)
    ⟨⟨(n >>> 16) &&& 255, Nat.lt_succ_of_le (Nat.and_le_right)⟩,
     ⟨(n >>> 8) &&& 255, Nat.lt_succ_of_le (Nat.and_le_right)⟩,
     ⟨n &&& 255, Nat.lt_succ_of_le (Nat.and_le_right)⟩⟩
  else black

/-- The `"type"` string written by `MainWin::MakeJson`. -/
def typeName : ShapeType → String
  | ShapeType.Rect => "rect"
  | ShapeType.Circle => "circle"
  | ShapeType.Line => "line"
  | ShapeType.Triangle => "triangle"

/-- The `"type"` parsing of `MainWin::LoadJson`. -/
def parseTypeName (t : String) : ShapeType :=
  if t = "rect" then ShapeType.Rect
  else if t = "circle" then ShapeType.Circle
  else if t = "line" then ShapeType.Line
  else ShapeType.Triangle

/-- The style map `st` written per shape by `MainWin::MakeJson`. -/
def styleToJson (st : Style) : JVal :=
  JVal.obj [
    ("fill", JVal.str (colorToString st.fill)),
    ("stroke", JVal.str (colorToString st.stroke)),
    ("strokeWidth", JVal.jint st.strokeWidth),
    ("dash", JVal.str st.dash),
    ("enableFill", JVal.jbool st.enableFill),
    ("enableStroke", JVal.jbool st.enableStroke),
    ("opacity", JVal.num st.opacity),
    ("evenOdd", JVal.jbool st.evenOdd),
    ("outlineEnable", JVal.jbool st.outlineEnable),
    ("outlineColor", JVal.str (colorToString st.outlineColor)),
    ("outlineWidth", JVal.jint st.outlineWidth),
    ("outlineOutside", JVal.jbool st.outlineOutside)]

/-- A point map `{x, y}` written by `MainWin::MakeJson`. -/
def pointToJson (p : Pointf) : JVal :=
  JVal.obj [("x", JVal.num p.x), ("y", JVal.num p.y)]

/-- The per-shape map written by `MainWin::MakeJson`. -/
def shapeToJson (s : Shape) : JVal :=
  JVal.obj [
    ("type", JVal.str (typeName s.type)),
    ("style", styleToJson s.style),
    ("geom", JVal.obj [
      ("x", JVal.num s.x), ("y", JVal.num s.y),
      ("w", JVal.num s.w), ("h", JVal.num s.h),
      ("cx", JVal.num s.cx), ("cy", JVal.num s.cy), ("r", JVal.num s.r),
      ("p1", pointToJson s.p1), ("p2", pointToJson s.p2), ("p3", pointToJson s.p3)])]

/-- `MainWin::MakeJson()`. -/
def makeJson (func : String) (ins : Inset) (shapes : List Shape) : JVal :=
  JVal.obj [
    ("function", JVal.str func),
    ("inset", JVal.obj [
      ("x", JVal.jint ins.x), ("y", JVal.jint ins.y),
      ("w", JVal.jint ins.w), ("h", JVal.jint ins.h)]),
    ("shapes", JVal.arr (shapes.map shapeToJson))]

/-- The style reading of `MainWin::LoadJson`. -/
def loadStyle (st : JVal) : Style :=
  { fill := stringToColor (st.getKey "fill").toStrV,
    stroke := stringToColor (st.getKey "stroke").toStrV,
    strokeWidth := (st.getKey "strokeWidth").toIntV,
    dash := (st.getKey "dash").toStrV,
    enableFill := (st.getKey "enableFill").toBoolV,
    enableStroke := (st.getKey "enableStroke").toBoolV,
    opacity := (st.getKey "opacity").toRatV,
    evenOdd := (st.getKey "evenOdd").toBoolV,
    outlineEnable := (st.getKey "outlineEnable").toBoolV,
    outlineColor := stringToColor (st.getKey "outlineColor").toStrV,
    outlineWidth := (st.getKey "outlineWidth").toIntV,
    outlineOutside := (st.getKey "outlineOutside").toBoolV }

/-- The `rdpt` lambda of `MainWin::LoadJson`. -/
def loadPoint (v : JVal) : Pointf :=
  ⟨(v.getKey "x").toRatV, (v.getKey "y").toRatV⟩

/-- The per-shape reading of `MainWin::LoadJson` (id assigned by caller). -/
def loadShape (m : JVal) : Shape :=
  let g := m.getKey "geom"
  { type := parseTypeName (m.getKey "type").toStrV,
    style := loadStyle (m.getKey "style"),
    x := (g.getKey "x").toRatV, y := (g.getKey "y").toRatV,
    w := (g.getKey "w").toRatV, h := (g.getKey "h").toRatV,
    cx := (g.getKey "cx").toRatV, cy := (g.getKey "cy").toRatV,
    r := (g.getKey "r").toRatV,
    p1 := match jlookup g.fieldsOf "p1" with
          | some v => loadPoint v
          | none => ⟨0, 0⟩,
    p2 := match jlookup g.fieldsOf "p2" with
          | some v => loadPoint v
          | none => ⟨0, 0⟩,
    p3 := match jlookup g.fieldsOf "p3" with
          | some v => loadPoint v
          | none => ⟨0, 0⟩,
    id := 0 }

/-- The shape-loading loop of `MainWin::LoadJson`: append each shape with a
freshly assigned id (`shapes.IsEmpty() ? 1 : shapes.Top().id + 1`). -/
def loadShapesLoop (acc : List Shape) : List JVal → List Shape
  | [] => acc
  | v :: rest =>
      loadShapesLoop (acc ++ [{ loadShape v with id := nextId acc }]) rest

/-- `MainWin::LoadJson(s)`: `none` models a `false` return (parse error or
missing `inset`/`shapes`); otherwise the loaded function name (if present),
inset and shape list. -/
def loadJson (v : JVal) : Option (Option String × Inset × List Shape) :=
  let fs := v.fieldsOf
  if (jlookup fs "inset").isSome ∧ (jlookup fs "shapes").isSome then
    let func : Option String :=
      match jlookup fs "function" with
      | some fv => some fv.toStrV
      | none => none
    let insV := v.getKey "inset"
    let ins : Inset := ⟨(insV.getKey "x").toIntV, (insV.getKey "y").toIntV,
                        (insV.getKey "w").toIntV, (insV.getKey "h").toIntV⟩
    let shapesList :=
      match jlookup fs "shapes" with
      | some (JVal.arr xs) => xs
      | _ => []
    some (func, ins, loadShapesLoop [] shapesList)
  else none

/-- Applying a successful `MainWin::LoadJson` to the canvas model: the shape
list and inset are replaced; `selected` is left untouched. -/
def loadJsonState (st : EditorState) (v : JVal) : EditorState :=
  match loadJson v with
  | none => st
  | some (_, ins, shapes) => { st with inset := ins, shapes := shapes }

/-- The normalized position of the corner diagonally opposite corner handle
`v` (handles 0,1,2,3 = TL,TR,BR,BL). -/
def oppositeCorner (s : Shape) (v : Int) : Pointf :=
  if v = 0 then ⟨s.x + s.w, s.y + s.h⟩
  else if v = 1 then ⟨s.x, s.y + s.h⟩
  else if v = 2 then ⟨s.x, s.y⟩
  else ⟨s.x + s.w, s.y⟩

/-- Pixel-delta sum (for expressing a drag as incremental deltas). -/
def sumIP (ds : List IPoint) : IPoint :=
  ds.foldl (· + ·) ⟨0, 0⟩

/-- The successive pointer positions of a drag starting at `p0` whose
incremental pixel deltas are `ds`. -/
def dragPositions (p0 : IPoint) : List IPoint → List IPoint
  | [] => []
  | d :: rest => (p0 + d) :: dragPositions (p0 + d) rest

/-- A shape with its (serialization-irrelevant) id erased, for stating
observable equality of documents. -/
def stripId (s : Shape) : Shape := { s with id := 0 }

/-- Rank of a style-setting emitter call in the order the SPEC claims
(opacity, dash, fill-rule, fill, stroke); path calls rank `none`.
Modelled from the spec: the claimed fixed order of style application. -/
def rankClaimed : EmitOp → Option Nat
  | EmitOp.Opacity _ => some 0
  | EmitOp.Dash _ _ => some 1
  | EmitOp.EvenOdd _ => some 2
  | EmitOp.Fill _ => some 3
  | EmitOp.Stroke _ _ => some 4
  | _ => none

/-- Rank of a style-setting emitter call in the order the code actually
uses: opacity, dash, fill, stroke, fill-rule. -/
def rankCode : EmitOp → Option Nat
  | EmitOp.Opacity _ => some 0
  | EmitOp.Dash _ _ => some 1
  | EmitOp.Fill _ => some 2
  | EmitOp.Stroke _ _ => some 3
  | EmitOp.EvenOdd _ => some 4
  | _ => none

/-- Rank of a generated style call of the code generator, in the order the
code actually uses: opacity, dash, fill, stroke, fill-rule. -/
def rankCodeC : CodeOp → Option Nat
  | CodeOp.OpacityC _ => some 0
  | CodeOp.DashC _ => some 1
  | CodeOp.FillC _ => some 2
  | CodeOp.StrokeC _ _ => some 3
  | CodeOp.EvenOddC => some 4
  | _ => none

/-- The dash choice of `MainWin::ApplyStyleToSelectionOrDefaults`
(`dlDash.GetIndex()`; index 3 is the custom dash edit field, `current` is
the dash inherited from `canvas.defaultStyle`). -/
def applyDashChoice (idx : Nat) (custom current : String) : String :=
  match idx with
  | 0 => ""
  | 1 => "5 5"
  | 2 => "2 4"
  | 3 => custom
  | _ => current

/-- A style exercising dash, fill, stroke and the even-odd fill rule at
once (opacity left at 1, whose pass is skipped). -/
def exStyleFull : Style :=
  { dash := "5 5", enableFill := true, enableStroke := true, evenOdd := true }

/-- A style whose dash spec is the malformed `"5,-3"` of the claim. -/
def exStyleDashA : Style := { dash := "5,-3" }

/-- A style whose dash spec is the malformed `"5,-3,0,2"` of the claim. -/
def exStyleDashB : Style := { dash := "5,-3,0,2" }

/-- A rectangle created and released at the same pixel: `w = h = 0`. -/
def exDegenRect : Shape :=
  { type := ShapeType.Rect, x := 1/2, y := 1/2, w := 0, h := 0 }

/-- A rectangle covering the whole work area (for hit-test examples). -/
def exCoverRect : Shape :=
  { type := ShapeType.Rect, x := 0, y := 0, w := 1, h := 1 }

/-- Editor state holding two stacked full-area rectangles. -/
def exTwoShapeState : EditorState :=
  { shapes := [exCoverRect, { exCoverRect with id := 2 }] }

/-- State after creating two rectangles from the initial state. -/
def exTwoCreates : EditorState :=
  (leftDownCreate (leftDownCreate {} Tool.Rect ⟨100, 100⟩).1
    Tool.Rect ⟨200, 200⟩).1

/-- `exTwoCreates` (selection = 1) after loading a one-shape document, as
`Undo`/`LoadDesign` do through `MainWin::LoadJson`. -/
def exLoadAfterCreates : EditorState :=
  loadJsonState exTwoCreates (makeJson "F" {} [{ type := ShapeType.Rect }])

/-- The selection invariant claimed by the spec: no selection, or an index
within the document. -/
def selInv (st : EditorState) : Prop :=
  st.selected = -1 ∨ (0 ≤ st.selected ∧ st.selected < (st.shapes.length : Int))

lemma ipoint_add_def (a b : IPoint) : a + b = ⟨a.x + b.x, a.y + b.y⟩ := rfl

lemma ipoint_zero_add (d : IPoint) : (⟨0, 0⟩ : IPoint) + d = d := by
  cases d
  simp [ipoint_add_def]

lemma ipoint_add_assoc (a b c : IPoint) : a + b + c = a + (b + c) := by
  simp [ipoint_add_def]
  constructor <;> ring

lemma sumIP_foldl (a : IPoint) (ds : List IPoint) :
    ds.foldl (· + ·) a = a + sumIP ds := by
  induction ds generalizing a with
  | nil =>
      cases a
      simp [sumIP, ipoint_add_def]
  | cons d rest ih =>
      simp only [List.foldl_cons]
      rw [ih (a + d)]
      have h2 : sumIP (d :: rest) = d + sumIP rest := by
        simp only [sumIP, List.foldl_cons]
        rw [ih (⟨0, 0⟩ + d), ipoint_zero_add]
        rfl
      rw [h2, ipoint_add_assoc]

lemma sumIP_cons (d : IPoint) (rest : List IPoint) :
    sumIP (d :: rest) = d + sumIP rest := by
  simp only [sumIP, List.foldl_cons]
  rw [sumIP_foldl (⟨0, 0⟩ + d) rest, ipoint_zero_add]
  rfl

/-- A later `moving` update overrides an earlier one: the moving branch
positions the shape from the current pointer alone. -/
lemma mouseMoveMoving_absorb (ir : IRect) (sn : Bool) (g : Int) (gx gy : ℚ)
    (s : Shape) (p q : IPoint) :
    mouseMoveMoving ir sn g gx gy (mouseMoveMoving ir sn g gx gy s p) q
      = mouseMoveMoving ir sn g gx gy s q := by
  rcases s with ⟨ty, st, x, y, w, h, cx, cy, r, p1, p2, p3, id⟩
  cases ty
  all_goals simp only [mouseMoveMoving]
  all_goals try simp [Pointf.mk.injEq]
  all_goals repeat' apply And.intro
  all_goals first | trivial | ring

lemma foldl_moving_positions (ir : IRect) (sn : Bool) (g : Int) (gx gy : ℚ)
    (s : Shape) (p0 : IPoint) (ds : List IPoint) (h : ds ≠ []) :
    List.foldl (mouseMoveMoving ir sn g gx gy) s (dragPositions p0 ds)
      = mouseMoveMoving ir sn g gx gy s (p0 + sumIP ds) := by
  induction ds generalizing p0 s with
  | nil => exact absurd rfl h
  | cons d rest ih =>
      by_cases hr : rest = []
      · subst hr
        simp [dragPositions, sumIP_cons, sumIP, ipoint_add_def]
      · simp only [dragPositions, List.foldl_cons]
        rw [ih _ _ hr, mouseMoveMoving_absorb, sumIP_cons]
        congr 1
        simp [ipoint_add_def]
        constructor <;> ring

end Glyph

namespace Glyph

/-- C7: dragging a selected shape through any number of incremental move
events whose pixel deltas total `sumIP ds` leaves the shape exactly where a
single move event at the final pointer position `p0 + sumIP ds` would: the
moving branch of `Canvas::MouseMove` accumulates repeated small deltas to
the overall delta, for every shape kind, snap setting and grab offset. -/
theorem move_accumulation (ir : IRect) (sn : Bool) (g : Int) (gx gy : ℚ)
    (s : Shape) (p0 : IPoint) (ds : List IPoint) (h : ds ≠ []) :
    List.foldl (mouseMoveMoving ir sn g gx gy) s (dragPositions p0 ds)
      = mouseMoveMoving ir sn g gx gy s (p0 + sumIP ds) :=
  foldl_moving_positions ir sn g gx gy s p0 ds h

/-- Witness for C7 at a concrete two-event drag of a rectangle. -/
theorem move_accumulation_witness :
    List.foldl
        (mouseMoveMoving ⟨50, 50, 450, 350⟩ false 20 0 0)
        { type := ShapeType.Rect, x := 1/4, y := 1/4, w := 1/2, h := 1/2 }
        (dragPositions ⟨100, 100⟩ [⟨3, 4⟩, ⟨5, -2⟩])
      = mouseMoveMoving ⟨50, 50, 450, 350⟩ false 20 0 0
          { type := ShapeType.Rect, x := 1/4, y := 1/4, w := 1/2, h := 1/2 }
          (⟨100, 100⟩ + sumIP [⟨3, 4⟩, ⟨5, -2⟩]) :=
  move_accumulation ⟨50, 50, 450, 350⟩ false 20 0 0
    { type := ShapeType.Rect, x := 1/4, y := 1/4, w := 1/2, h := 1/2 }
    ⟨100, 100⟩ [⟨3, 4⟩, ⟨5, -2⟩] (by decide)

/-- C8 (code bug): `Canvas::Snap1D` does not return the nearest grid point
for a coordinate left of the origin. At `v = 35`, `origin = 50`,
`step = 20` the code returns 50, while the documented/specified formula
`origin + round((v - origin)/step)*step` gives 30 (the grid point at
distance 5 instead of 15). -/
theorem snap1D_not_nearest_left_of_origin :
    snap1D 35 50 20 = 50 ∧
    (50 : Int) + round (((35 : ℚ) - 50) / 20) * 20 = 30 := by
  constructor
  · decide
  · rw [round_eq]
    norm_num

/-- C9: dragging any of the four corner handles of a rectangle (the
`drag_vertex` branch of `Canvas::MouseMove`) leaves the diagonally opposite
corner at the same normalized coordinates. -/
theorem rect_corner_drag_keeps_opposite (sq : ℚ → ℚ) (ir : IRect) (sn : Bool)
    (g : Int) (v : Int) (s : Shape) (p : IPoint)
    (ht : s.type = ShapeType.Rect) (h0 : 0 ≤ v) (h3 : v ≤ 3) :
    oppositeCorner (mouseMoveDragVertex sq ir sn g v s p) v = oppositeCorner s v := by
  rcases s with ⟨ty, st, x, y, w, h, cx, cy, r, p1, p2, p3, id⟩
  simp only at ht
  subst ht
  interval_cases v
  all_goals simp [mouseMoveDragVertex, oppositeCorner, Pointf.mk.injEq]

/-- Witness for C9: dragging the top-left handle of a concrete rectangle
keeps its bottom-right corner fixed. -/
theorem rect_corner_drag_keeps_opposite_witness :
    oppositeCorner
        (mouseMoveDragVertex id ⟨50, 50, 450, 350⟩ false 20 0
          { type := ShapeType.Rect, x := 1/4, y := 1/4, w := 1/2, h := 1/2 }
          ⟨100, 100⟩) 0
      = oppositeCorner
          { type := ShapeType.Rect, x := 1/4, y := 1/4, w := 1/2, h := 1/2 } 0 :=
  rect_corner_drag_keeps_opposite id ⟨50, 50, 450, 350⟩ false 20 0
    { type := ShapeType.Rect, x := 1/4, y := 1/4, w := 1/2, h := 1/2 }
    ⟨100, 100⟩ rfl (by decide) (by decide)

lemma pickLoop_neg_or_lt (ir : IRect) (shapes : List Shape) (p : IPoint) (n : Nat) :
    pickLoop ir shapes p n = -1 ∨
    (0 ≤ pickLoop ir shapes p n ∧ pickLoop ir shapes p n < (n : Int)) := by
  induction n with
  | zero => exact Or.inl rfl
  | succ n ih =>
      simp only [pickLoop]
      split
      · right
        constructor
        · exact Int.natCast_nonneg n
        · push_cast
          omega
      · rcases ih with h | ⟨h1, h2⟩
        · exact Or.inl h
        · right
          refine ⟨h1, ?_⟩
          push_cast
          omega

lemma pickLoop_none (ir : IRect) (shapes : List Shape) (p : IPoint) (n : Nat)
    (h : ∀ i, i < n → pickHit ir (shapes.getD i default) p = false) :
    pickLoop ir shapes p n = -1 := by
  induction n with
  | zero => rfl
  | succ n ih =>
      simp only [pickLoop, h n (Nat.lt_succ_self n)]
      simp only [Bool.false_eq_true, if_false]
      exact ih fun i hi => h i (Nat.lt_succ_of_lt hi)

lemma leftDownCursor_selected (st : EditorState) (p : IPoint) :
    (leftDownCursor st p).selected
      = pickTopmost (getInsetRect st.inset) st.shapes p := by
  unfold leftDownCursor
  dsimp only
  split_ifs <;> rfl

lemma leftDownCursor_shapes (st : EditorState) (p : IPoint) :
    (leftDownCursor st p).shapes = st.shapes := by
  unfold leftDownCursor
  dsimp only
  split_ifs <;> rfl

/-- C10: a pointer-down with a creation tool at a point outside the work
area leaves the editor state completely unchanged and fires no
model-changed notification (`Canvas::LeftDown` returns before any
mutation). -/
theorem create_outside_inset_noop (st : EditorState) (tool : Tool) (p : IPoint)
    (htool : tool = Tool.Rect ∨ tool = Tool.Circle ∨ tool = Tool.Line ∨
             tool = Tool.Triangle)
    (hout : (getInsetRect st.inset).contains p = false) :
    leftDownCreate st tool p = (st, false) := by
  rcases htool with h | h | h | h <;> subst h <;>
    simp [leftDownCreate, hout]

/-- Witness for C10: a rectangle-tool pointer-down at the origin pixel,
outside the default 50-pixel inset, changes nothing. -/
theorem create_outside_inset_noop_witness :
    leftDownCreate {} Tool.Rect ⟨0, 0⟩ = ({}, false) :=
  create_outside_inset_noop {} Tool.Rect ⟨0, 0⟩ (Or.inl rfl) (by decide)

/-- C6: when shapes A (added first) and B (added second) both cover pixel
`p`, a select-tool pointer-down at `p` selects B (the pick walk of
`Canvas::LeftDown` runs topmost-first and the first hit wins, whatever the
prior selection); and when no shape is hit the selection is cleared. -/
theorem topmost_wins (st : EditorState) (p : IPoint) (A B : Shape)
    (hs : st.shapes = [A, B])
    (_hA : pickHit (getInsetRect st.inset) A p = true)
    (hB : pickHit (getInsetRect st.inset) B p = true) :
    (leftDownCursor st p).selected = 1 ∧
    (∀ st2 : EditorState,
      (∀ i, i < st2.shapes.length →
        pickHit (getInsetRect st2.inset) (st2.shapes.getD i default) p = false) →
      (leftDownCursor st2 p).selected = -1) := by
  constructor
  · rw [leftDownCursor_selected, hs]
    simp [pickTopmost, pickLoop, hB]
  · intro st2 h2
    rw [leftDownCursor_selected]
    exact pickLoop_none _ _ _ _ fun i hi => h2 i hi

/-- Witness for C6: two stacked full-area rectangles; pointer-down inside
selects index 1 (the later shape). -/
theorem topmost_wins_witness :
    (leftDownCursor exTwoShapeState ⟨100, 100⟩).selected = 1 :=
  (topmost_wins exTwoShapeState ⟨100, 100⟩ exCoverRect
    { exCoverRect with id := 2 } rfl
    (by norm_num [pickHit, pickBB, exCoverRect, exTwoShapeState, getInsetRect,
                  rectC, IRect.contains, pxX, pxY, cppTrunc,
                  IRect.width, IRect.height])
    (by norm_num [pickHit, pickBB, exCoverRect, exTwoShapeState, getInsetRect,
                  rectC, IRect.contains, pxX, pxY, cppTrunc,
                  IRect.width, IRect.height])).1

/-- C5 (counterexample): the selection invariant is violated in a state
reachable by two shape creations followed by a document load (the
`Undo`/`LoadDesign` path through `MainWin::LoadJson`, which replaces the
shape list but leaves `selected` untouched): selection is 1 with only one
shape in the document. -/
theorem selection_out_of_range_after_load :
    exLoadAfterCreates.selected = 1 ∧ exLoadAfterCreates.shapes.length = 1 ∧
    ¬ selInv exLoadAfterCreates := by
  have h1 : exLoadAfterCreates.selected = 1 := by rfl
  have h2 : exLoadAfterCreates.shapes.length = 1 := by rfl
  refine ⟨h1, h2, ?_⟩
  rintro (h | ⟨hga, hlt⟩)
  · rw [h1] at h
    exact absurd h (by decide)
  · rw [h1, h2] at hlt
    exact absurd hlt (by decide)

/-- C5 (amended): every public operation except document load keeps the
selection invariant — selection is none (-1) or an index inside the
document; load (and undo/redo through it) may leave a stale out-of-range
index, which readers treat as none. -/
theorem selection_ops_preserve_invariant (st : EditorState) (hinv : selInv st) :
    (∀ p, selInv (leftDownCursor st p)) ∧
    (∀ tool p, selInv (leftDownCreate st tool p).1) ∧
    selInv (deleteSelection st) ∧
    selInv (duplicateSelection st) ∧
    selInv (layerUp st) ∧
    selInv (layerDown st) ∧
    (∀ hz, selInv (flipSelection st hz)) ∧
    selInv (clearAll st) := by
  refine ⟨?_, ?_, ?_, ?_, ?_, ?_, ?_, ?_⟩
  · intro p
    unfold selInv
    rw [leftDownCursor_selected, leftDownCursor_shapes]
    exact pickLoop_neg_or_lt _ _ _ _
  · intro tool p
    unfold leftDownCreate
    dsimp only
    split_ifs <;>
      first
        | exact hinv
        | (right
           constructor
           · exact Int.natCast_nonneg _
           · simp only [List.length_append, List.length_cons, List.length_nil]
             push_cast
             omega)
  · unfold deleteSelection
    split_ifs with h
    · have hlen : (st.shapes.eraseIdx st.selected.toNat).length + 1
          = st.shapes.length :=
        List.length_eraseIdx_add_one (by omega)
      unfold selInv
      dsimp only
      omega
    · exact hinv
  · unfold duplicateSelection
    split_ifs with h
    · have hlen : (st.shapes.insertIdx (st.selected.toNat + 1)
            { st.shapes.getD st.selected.toNat default with id := nextId st.shapes }).length
          = st.shapes.length + 1 :=
        List.length_insertIdx _ _ (by omega)
      unfold selInv
      dsimp only
      rw [hlen]
      omega
    · exact hinv
  · unfold layerUp
    split_ifs with h
    · unfold selInv listSwap
      dsimp only
      simp only [List.length_set]
      omega
    · exact hinv
  · unfold layerDown
    split_ifs with h
    · unfold selInv listSwap
      dsimp only
      simp only [List.length_set]
      unfold selInv at hinv
      omega
    · exact hinv
  · intro hz
    by_cases h : 0 ≤ st.selected ∧ st.selected < (st.shapes.length : Int)
    · unfold flipSelection
      rw [if_pos h]
      unfold selInv
      dsimp only
      simp only [List.length_set]
      exact hinv
    · unfold flipSelection
      rw [if_neg h]
      exact hinv
  · exact Or.inl rfl

/-- Witness for C5 (amended): deleting from the initial (empty-selection)
state keeps the invariant. -/
theorem selection_ops_preserve_invariant_witness :
    selInv (deleteSelection ({} : EditorState)) :=
  (selection_ops_preserve_invariant {} (Or.inl rfl)).2.2.1

lemma hexCharVal_hexDigitChar (n : Nat) (h : n < 16) :
    hexCharVal (hexDigitChar n) = some n := by
  interval_cases n <;> decide

lemma strtoul16_six (r g b : Nat) (hr : r < 256) (hg : g < 256) (hb : b < 256) :
    strtoul16 0 [hexDigitChar (r / 16), hexDigitChar (r % 16),
                 hexDigitChar (g / 16), hexDigitChar (g % 16),
                 hexDigitChar (b / 16), hexDigitChar (b % 16)]
      = 65536 * r + 256 * g + b := by
  have h1 : r / 16 < 16 := by omega
  have h2 : r % 16 < 16 := by omega
  have h3 : g / 16 < 16 := by omega
  have h4 : g % 16 < 16 := by omega
  have h5 : b / 16 < 16 := by omega
  have h6 : b % 16 < 16 := by omega
  simp only [strtoul16, hexCharVal_hexDigitChar _ h1, hexCharVal_hexDigitChar _ h2,
             hexCharVal_hexDigitChar _ h3, hexCharVal_hexDigitChar _ h4,
             hexCharVal_hexDigitChar _ h5, hexCharVal_hexDigitChar _ h6]
  omega

lemma nat_and_255 (m : Nat) : m &&& 255 = m % 256 := by
  have h := Nat.and_pow_two_sub_one_eq_mod m 8
  norm_num at h
  exact h

lemma extract_bytes (r g b : Nat) (hr : r < 256) (hg : g < 256) (hb : b < 256) :
    ((65536 * r + 256 * g + b) >>> 16) &&& 255 = r ∧
    ((65536 * r + 256 * g + b) >>> 8) &&& 255 = g ∧
    (65536 * r + 256 * g + b) &&& 255 = b := by
  rw [nat_and_255, nat_and_255, nat_and_255,
      Nat.shiftRight_eq_div_pow, Nat.shiftRight_eq_div_pow]
  norm_num
  omega

lemma stringToColor_colorToString (c : Color) :
    stringToColor (colorToString c) = c := by
  obtain ⟨⟨r, hr⟩, ⟨g, hg⟩, ⟨b, hb⟩⟩ := c
  simp only [colorToString, stringToColor]
  rw [if_pos ⟨rfl, rfl⟩]
  simp only [Color.mk.injEq, Fin.mk.injEq, List.drop_succ_cons, List.drop_zero]
  rw [strtoul16_six r g b hr hg hb]
  exact extract_bytes r g b hr hg hb

lemma parseTypeName_typeName (t : ShapeType) : parseTypeName (typeName t) = t := by
  cases t <;> rfl

lemma loadStyle_styleToJson (st : Style) : loadStyle (styleToJson st) = st := by
  rcases st with ⟨f, sk, sw, eo, da, ef, es, op, oe, oc, ow, oo⟩
  simp [loadStyle, styleToJson, JVal.getKey, JVal.fieldsOf, jlookup,
        JVal.toStrV, JVal.toIntV, JVal.toBoolV, JVal.toRatV,
        stringToColor_colorToString]

lemma loadShape_shapeToJson (s : Shape) : loadShape (shapeToJson s) = stripId s := by
  rcases s with ⟨ty, st, x, y, w, h, cx, cy, r, P1, P2, P3, idv⟩
  rcases P1 with ⟨ax, ay⟩
  rcases P2 with ⟨bx, by2⟩
  rcases P3 with ⟨tx, ty2⟩
  simp [loadShape, shapeToJson, stripId, JVal.getKey, JVal.fieldsOf, jlookup,
        JVal.toRatV, JVal.toStrV, loadStyle_styleToJson, loadPoint, pointToJson,
        parseTypeName_typeName]

lemma stripId_update_id (s : Shape) (n : Int) :
    stripId { s with id := n } = stripId s := rfl

lemma stripId_stripId (s : Shape) : stripId (stripId s) = stripId s := rfl

lemma loadShapesLoop_map_strip (vs : List JVal) (acc : List Shape) :
    (loadShapesLoop acc vs).map stripId
      = acc.map stripId ++ vs.map (fun v => stripId (loadShape v)) := by
  induction vs generalizing acc with
  | nil => simp [loadShapesLoop]
  | cons v rest ih =>
      simp only [loadShapesLoop]
      rw [ih]
      simp [stripId_update_id]

/-- C1: deserializing the serialization of any document succeeds and yields
a document with the same shape count and, at every index, the same kind,
style and geometry (ids are reassigned; everything observable is preserved
exactly, hence in particular within floating-point tolerance). -/
theorem json_roundtrip (f : String) (ins : Inset) (shapes : List Shape) :
    ∃ shapes2 : List Shape,
      loadJson (makeJson f ins shapes) = some (some f, ins, shapes2) ∧
      shapes2.length = shapes.length ∧
      shapes2.map stripId = shapes.map stripId := by
  refine ⟨loadShapesLoop [] (shapes.map shapeToJson), ?_, ?_, ?_⟩
  · rcases ins with ⟨ix, iy, iw, ihh⟩
    simp [loadJson, makeJson, jlookup, JVal.fieldsOf, JVal.getKey,
          JVal.toStrV, JVal.toIntV]
  · have h2 : (loadShapesLoop [] (shapes.map shapeToJson)).length
        = ((loadShapesLoop [] (shapes.map shapeToJson)).map stripId).length := by
      simp
    rw [h2, loadShapesLoop_map_strip]
    simp
  · rw [loadShapesLoop_map_strip]
    simp only [List.map_nil, List.nil_append, List.map_map, Function.comp_def,
               loadShape_shapeToJson, stripId_stripId]

/-- C2 (counterexample): a rectangle created and released at the same pixel
(`w = h = 0`) still produces render output — `Canvas::EmitShape` has no
minimum-extent suppression. -/
theorem degenerate_rect_emits_output :
    emitShape exDegenRect (getInsetRect {}) ≠ [] := by
  simp [emitShape, exDegenRect, rebuildPath, emitRectPath]

/-- C2 (amended): no degenerate-footprint suppression exists: a `w = h = 0`
rectangle is rendered and code-generated like any other shape, producing a
path whose four corners coincide (a zero-extent fragment) followed by the
usual style passes. -/
theorem degenerate_rect_zero_extent (s : Shape) (ir : IRect)
    (ht : s.type = ShapeType.Rect) (hw : s.w = 0) (hh : s.h = 0)
    (ho : s.style.outlineEnable = false) :
    emitShape s ir
      = emitRectPath ⟨pxX ir s.x, pxY ir s.y, pxX ir s.x, pxY ir s.y⟩ ++
          stylePass s.style true false ++ [EmitOp.End] ∧
    refreshCodeShape s
      = [CodeOp.CommentKind ShapeType.Rect, CodeOp.BeginC, CodeOp.MoveC s.x s.y,
         CodeOp.LineC s.x s.y, CodeOp.LineC s.x s.y, CodeOp.LineC s.x s.y,
         CodeOp.CloseC] ++
          emitStyleCode s.style true false := by
  constructor
  · simp [emitShape, ho, rebuildPath, ht, hw, hh]
  · simp [refreshCodeShape, ho, emitPathCode, ht, hw, hh, emitRectCode]

/-- Witness for C2 (amended) at the concrete degenerate rectangle. -/
theorem degenerate_rect_zero_extent_witness :
    emitShape exDegenRect (getInsetRect {})
      = emitRectPath ⟨pxX (getInsetRect {}) exDegenRect.x,
                      pxY (getInsetRect {}) exDegenRect.y,
                      pxX (getInsetRect {}) exDegenRect.x,
                      pxY (getInsetRect {}) exDegenRect.y⟩ ++
          stylePass exDegenRect.style true false ++ [EmitOp.End] ∧
    refreshCodeShape exDegenRect
      = [CodeOp.CommentKind ShapeType.Rect, CodeOp.BeginC,
         CodeOp.MoveC exDegenRect.x exDegenRect.y,
         CodeOp.LineC exDegenRect.x exDegenRect.y,
         CodeOp.LineC exDegenRect.x exDegenRect.y,
         CodeOp.LineC exDegenRect.x exDegenRect.y, CodeOp.CloseC] ++
          emitStyleCode exDegenRect.style true false :=
  degenerate_rect_zero_extent exDegenRect (getInsetRect {}) rfl rfl rfl rfl

/-- C3 (counterexample): the malformed dash specs of the claim are not
filtered: the style pass forwards them verbatim to the painter's dash call
instead of using `{5,2}` resp. treating them as solid. -/
theorem dash_not_sanitized :
    EmitOp.Dash "5,-3" 0 ∈ stylePass exStyleDashA true false ∧
    EmitOp.Dash "5,-3,0,2" 0 ∈ stylePass exStyleDashB true false := by
  constructor <;> decide

/-- C3 (amended): the program performs no dash parsing or filtering — an
empty dash string means solid (no dash call at all), any non-empty dash
string is passed verbatim to the painter, and the custom dash text of the
style panel is applied unmodified. -/
theorem dash_passed_verbatim (st : Style) (is_line : Bool) :
    (st.dash = "" → ∀ spec ph, EmitOp.Dash spec ph ∉ stylePass st true is_line) ∧
    (st.dash ≠ "" → EmitOp.Dash st.dash 0 ∈ stylePass st true is_line) ∧
    (∀ custom current, applyDashChoice 3 custom current = custom) := by
  refine ⟨?_, ?_, fun _ _ => rfl⟩
  · intro h spec ph
    simp only [stylePass, h]
    split_ifs <;> simp
  · intro h
    simp only [stylePass]
    split_ifs <;> simp_all

/-- Witness for C3 (amended): the built-in dash "2 4" is forwarded as-is. -/
theorem dash_passed_verbatim_witness :
    EmitOp.Dash "2 4" 0 ∈ stylePass { dash := "2 4" } true false :=
  (dash_passed_verbatim { dash := "2 4" } false).2.1 (by decide)

/-- C4 (counterexample): the claimed fixed order
opacity → dash → fill-rule → fill → stroke is violated: with fill, stroke
and the even-odd rule all enabled, the style pass emits the fill-rule call
after fill and stroke, not before them. -/
theorem style_order_claim_violated :
    ¬ List.Chain' (· ≤ ·) ((stylePass exStyleFull true false).filterMap rankClaimed) := by
  intro hchain
  have h : (stylePass exStyleFull true false).filterMap rankClaimed
      = [1, 3, 4, 2] := by
    simp [stylePass, exStyleFull, rankClaimed]
  rw [h] at hchain
  simp [List.chain'_cons] at hchain

/-- C4 (amended): every emitted style pass — in the render path and in the
code generator — applies style settings in the fixed order
opacity → dash → fill → stroke → fill-rule. -/
lemma filterMap_rank_stylePass (st : Style) (is_line : Bool) :
    (stylePass st true is_line).filterMap rankCode
      = (if st.opacity < 1 then [0] else []) ++
        (if st.dash = "" then [] else [1]) ++
        (if st.enableFill && !is_line then [2] else []) ++
        (if st.enableStroke then [3] else []) ++
        (if st.evenOdd then [4] else []) := by
  simp only [stylePass, if_true]
  simp only [List.filterMap_append, apply_ite (List.filterMap rankCode),
             List.filterMap_cons, List.filterMap_nil, rankCode]

lemma filterMap_rank_emitStyleCode (st : Style) (is_line : Bool) :
    (emitStyleCode st true is_line).filterMap rankCodeC
      = (if st.opacity < 1 then [0] else []) ++
        (if st.dash = "" then [] else [1]) ++
        (if st.enableFill && !is_line then [2] else []) ++
        (if st.enableStroke then [3] else []) ++
        (if st.evenOdd then [4] else []) := by
  simp only [emitStyleCode, if_true]
  simp only [List.filterMap_append, apply_ite (List.filterMap rankCodeC),
             List.filterMap_cons, List.filterMap_nil, rankCodeC, List.append_nil]

theorem style_order_fixed (st : Style) (main is_line : Bool) :
    List.Chain' (· ≤ ·) ((stylePass st main is_line).filterMap rankCode) ∧
    List.Chain' (· ≤ ·) ((emitStyleCode st main is_line).filterMap rankCodeC) := by
  constructor
  · cases main
    · simp only [stylePass]
      split_ifs <;> simp [rankCode]
    · rw [filterMap_rank_stylePass]
      split_ifs <;> simp [List.chain'_cons]
  · cases main
    · simp only [emitStyleCode]
      split_ifs <;> simp [rankCodeC]
    · rw [filterMap_rank_emitStyleCode]
      split_ifs <;> simp [List.chain'_cons]

end Glyph
